import Mathlib

/-!
Shallow embedding of the lushus-redis storage adapter
(src/src/redis/redis_database.rs, src/src/redis/error.rs,
src/src/redis/execute_command.rs).

The external Redis server is modelled as an explicit `Store` state threaded
through every operation: each adapter call returns its result together with
the store state left behind, so "the set command was never issued" is visible
as "the returned store equals the input store".  The serde_json codec is a
parameter (`Codec`).  Time is not modelled: stored TTLs do not count down
between operations, matching the claims' side conditions that no expiry or
delay intervenes.
-/

namespace LushusRedis

/-- Error taxonomy, from src/src/redis/error.rs lines 1-11. -/
inductive RedisError
  | ConnectionError (msg : String)
  | QueryError (msg : String)
  | SerializeError (key msg : String)
  | DeserializeError (key msg : String)
  deriving DecidableEq, Repr

/-- Modelled from the spec: the Command builder lives in `mod commands`
(src/src/redis.rs line 1), whose file is absent from src/.  Spec section 4.1 gives
the five wire command shapes: string-get, string-set-with-expiry-in-seconds,
key-delete, key-exists, key-ttl-remaining.  A Rust `Duration` is modelled by
its whole-second count (`Nat`), matching `Duration::from_secs`.  The
constructor the source calls `exists` is named `existsKey` because `exists`
is reserved in Lean; `ttl` keeps its source name. -/
inductive Command
  | get (key : String)
  | set (key value : String) (ttl : Nat)
  | delete (key : String)
  | existsKey (key : String)
  | ttl (key : String)
  deriving DecidableEq, Repr

/-- Raw protocol reply values, the codomain of the modelled wire protocol
(`redis::Value` on the Rust side, decoded by `FromRedisValue`). -/
inductive RedisValue
  | nil
  | str (s : String)
  | int (n : Nat)
  | bool (b : Bool)
  | okay
  deriving DecidableEq, Repr

/-- Modelled from the spec: the external cache server (a black-box
key-value/TTL service, spec sections 1 and 6).  `data` associates each key with
its stored string and the TTL seconds recorded when it was set; `missingTtl`
is the implementation-defined integer the store reports for a TTL query on a
key it does not hold (spec section 4.1: "implementation-defined by the external
store and must be passed through unchanged"); `connected` says whether a
connection to the server can currently be established. -/
structure Store where
  data : List (String × String × Nat)
  missingTtl : Nat
  connected : Bool
  deriving DecidableEq, Repr

/-- Association-list lookup for the store contents. -/
def lookupData : List (String × String × Nat) → String → Option (String × Nat)
  | [], _ => none
  | (k, e) :: rest, key => if k = key then some e else lookupData rest key

/-- Effect of the key-delete command on the store contents. -/
def removeEntry : List (String × String × Nat) → String → List (String × String × Nat)
  | [], _ => []
  | (k, e) :: rest, key =>
    if k = key then removeEntry rest key else (k, e) :: removeEntry rest key

/-- Effect of the set-with-expiry command on the store contents: the key now
maps to the given string with the given TTL, any previous binding gone. -/
def setEntry (l : List (String × String × Nat)) (key value : String) (t : Nat) :
    List (String × String × Nat) :=
  (key, value, t) :: removeEntry l key

/-- Modelled from the spec: the wire semantics of the five command shapes
against the black-box store (spec section 6, "Wire protocol").  Reads leave the
store unchanged; set-with-expiry binds key to (value, ttl); delete removes the
key and reports the deleted count; the TTL query reports the recorded seconds,
or the store's implementation-defined `missingTtl` for an absent key. -/
def Store.runCommand (s : Store) : Command → RedisValue × Store
  | .get key =>
    (match lookupData s.data key with
     | some e => .str e.1
     | none => .nil, s)
  | .set key value t => (.okay, { s with data := setEntry s.data key value t })
  | .delete key =>
    (.int (if (lookupData s.data key).isSome then 1 else 0),
     { s with data := removeEntry s.data key })
  | .existsKey key => (.bool (lookupData s.data key).isSome, s)
  | .ttl key =>
    (.int (match lookupData s.data key with
           | some e => e.2
           | none => s.missingTtl), s)

/-- FromRedisValue for `Option<String>` (used by the get command). -/
def decodeOptString : RedisValue → Option (Option String)
  | .nil => some none
  | .str v => some (some v)
  | _ => none

/-- FromRedisValue for `bool` (used by the exists command). -/
def decodeBool : RedisValue → Option Bool
  | .bool b => some b
  | _ => none

/-- FromRedisValue for `u64` (used by the ttl command). -/
def decodeNat : RedisValue → Option Nat
  | .int n => some n
  | _ => none

/-- FromRedisValue for `()` (used by set and delete, whose replies the
adapter discards): every reply decodes. -/
def decodeUnit : RedisValue → Option Unit
  | _ => some ()

/-- A typed serde_json codec pair for one value type: `enc` models
`serde_json::to_string`, `dec` models `serde_json::from_str`; the `String`
error is the serde error rendered by `to_string()`. -/
structure Codec (α : Type) where
  enc : α → Except String String
  dec : String → Except String α

/-- Opaque client handle produced by the external `redis::Client`. -/
structure Client where
  url : String
  deriving DecidableEq, Repr

/-- The adapter, from src/src/redis/redis_database.rs lines 9-13: a client
handle and the configured default TTL (whole seconds). -/
structure RedisDatabase where
  client : Client
  ttl : Nat
  deriving DecidableEq, Repr

/-- RedisDatabase::new (lines 16-21).  `Client::open` only parses the URL
(external crate; spec section 6: construction "fails with a Connection error if
the URL cannot be parsed into a client handle"), so the parse outcome is a
parameter `openClient`; a parse error string `e` becomes
`ConnectionError e`. -/
def RedisDatabase.new (openClient : String → Except String Client)
    (url : String) (ttl : Nat) : Except RedisError RedisDatabase :=
  match openClient url with
  | .error e => .error (.ConnectionError e)
  | .ok client => .ok { client := client, ttl := ttl }

/-- RedisDatabase::connection (lines 23-30): obtain a connection from the
client; fails with ConnectionError when the modelled store is unreachable. -/
def RedisDatabase.connection (_db : RedisDatabase) (s : Store) :
    Except RedisError Unit :=
  if s.connected then .ok () else .error (.ConnectionError "connection refused")

/-- ExecuteCommand::execute_command (lines 49-59): open a connection, send
the command against the store.  The raw reply is paired with the store state
left behind; a connection failure leaves the store untouched. -/
def RedisDatabase.executeCommand (db : RedisDatabase) (s : Store) (c : Command) :
    Except RedisError RedisValue × Store :=
  match db.connection s with
  | .error e => (.error e, s)
  | .ok _ =>
    let vs := s.runCommand c
    (.ok vs.1, vs.2)

/-- The typed half of execute_command: `query::<T>` decodes the raw reply
into the expected type; a reply of the wrong shape is a store-side failure
surfaced as QueryError (lines 53-56). -/
def RedisDatabase.execAs {α : Type} (db : RedisDatabase) (s : Store)
    (c : Command) (decode : RedisValue → Option α) :
    Except RedisError α × Store :=
  match db.executeCommand s c with
  | (.error e, s') => (.error e, s')
  | (.ok v, s') =>
    match decode v with
    | some a => (.ok a, s')
    | none => (.error (.QueryError "response type mismatch"), s')

/-- RedisDatabase::_get (lines 32-40): issue the get command, then decode a
returned string into the requested type, mapping decode failure to
`DeserializeError key`; an absent key is `Ok(None)`. -/
def RedisDatabase._get {α : Type} (cd : Codec α) (db : RedisDatabase)
    (s : Store) (key : String) : Except RedisError (Option α) × Store :=
  match db.execAs s (Command.get key) decodeOptString with
  | (.error e, s') => (.error e, s')
  | (.ok data, s') =>
    match data with
    | none => (.ok none, s')
    | some v =>
      match cd.dec v with
      | .ok a => (.ok (some a), s')
      | .error e => (.error (.DeserializeError key e), s')

/-- StorageRead::get (lines 71-77): stringify the key and delegate to _get.
Keys are already their string form here, since the adapter immediately calls
`key.to_string()`. -/
def StorageRead.get {α : Type} (cd : Codec α) (db : RedisDatabase) (s : Store)
    (key : String) : Except RedisError (Option α) × Store :=
  RedisDatabase._get cd db s key

/-- StorageRead::exists (lines 79-84): issue the exists command and decode a
boolean. -/
def StorageRead.existsKey (db : RedisDatabase) (s : Store) (key : String) :
    Except RedisError Bool × Store :=
  db.execAs s (Command.existsKey key) decodeBool

/-- StorageWrite::insert (lines 94-107): pre-read the previous value via
_get, encode the new value (failure is `SerializeError key`), then issue
set-with-expiry carrying the adapter's configured TTL, and return the
previous value. -/
def StorageWrite.insert {α : Type} (cd : Codec α) (db : RedisDatabase)
    (s : Store) (key : String) (value : α) :
    Except RedisError (Option α) × Store :=
  match RedisDatabase._get cd db s key with
  | (.error e, s1) => (.error e, s1)
  | (.ok previous, s1) =>
    match cd.enc value with
    | .error e => (.error (.SerializeError key e), s1)
    | .ok str =>
      match db.execAs s1 (Command.set key str db.ttl) decodeUnit with
      | (.error e, s2) => (.error e, s2)
      | (.ok _, s2) => (.ok previous, s2)

/-- StorageWrite::remove (lines 109-118): pre-read the previous value via
_get, then issue delete, and return the previous value. -/
def StorageWrite.remove {α : Type} (cd : Codec α) (db : RedisDatabase)
    (s : Store) (key : String) : Except RedisError (Option α) × Store :=
  match RedisDatabase._get cd db s key with
  | (.error e, s1) => (.error e, s1)
  | (.ok previous, s1) =>
    match db.execAs s1 (Command.delete key) decodeUnit with
    | (.error e, s2) => (.error e, s2)
    | (.ok _, s2) => (.ok previous, s2)

/-- Rust Duration, by its whole-second count. -/
abbrev Duration := Nat

/-- Duration::from_secs on the whole-second model. -/
def Duration.fromSecs (n : Nat) : Duration := n

/-- StorageTemp::ttl (lines 126-132): issue the ttl command, decode a u64
count of seconds, and return it as a Duration via from_secs. -/
def StorageTemp.ttl (db : RedisDatabase) (s : Store) (key : String) :
    Except RedisError Duration × Store :=
  match db.execAs s (Command.ttl key) decodeNat with
  | (.error e, s') => (.error e, s')
  | (.ok seconds, s') => (.ok (Duration.fromSecs seconds), s')

/-- One abstract storage call, for stating the frame property over whole
call sequences. -/
inductive Op (α : Type)
  | get (key : String)
  | existsKey (key : String)
  | insert (key : String) (value : α)
  | remove (key : String)
  | ttl (key : String)

/-- Run one call, threading the adapter value the way the Rust receivers do:
get / exists / ttl take `&self`; insert / remove take `&mut self` but their
bodies (lines 94-118) only read `self.ttl` and call `&self` helpers, never
assigning a field, so the adapter each call hands on is the one it
received. -/
def stepOp {α : Type} (cd : Codec α) (db : RedisDatabase) (s : Store) :
    Op α → RedisDatabase × Store
  | .get key => (db, (StorageRead.get cd db s key).2)
  | .existsKey key => (db, (StorageRead.existsKey db s key).2)
  | .insert key value => (db, (StorageWrite.insert cd db s key value).2)
  | .remove key => (db, (StorageWrite.remove cd db s key).2)
  | .ttl key => (db, (StorageTemp.ttl db s key).2)

/-- Run a sequence of calls, threading adapter and store. -/
def runOps {α : Type} (cd : Codec α) :
    RedisDatabase → Store → List (Op α) → RedisDatabase × Store
  | db, s, [] => (db, s)
  | db, s, op :: rest =>
    let next := stepOp cd db s op
    runOps cd next.1 next.2 rest

/-! Characterization lemmas: each adapter operation, fully evaluated against
the store model. -/

theorem lookup_setEntry_self (l : List (String × String × Nat))
    (key value : String) (t : Nat) :
    lookupData (setEntry l key value t) key = some (value, t) := by
  simp [setEntry, lookupData]

theorem lookup_removeEntry_self (l : List (String × String × Nat))
    (key : String) : lookupData (removeEntry l key) key = none := by
  induction l with
  | nil => simp [removeEntry, lookupData]
  | cons p rest ih =>
    by_cases h : p.1 = key <;> simp [removeEntry, lookupData, h, ih]

theorem get_eq {α : Type} (cd : Codec α) (db : RedisDatabase) (s : Store)
    (key : String) :
    RedisDatabase._get cd db s key =
      (if s.connected then
         match lookupData s.data key with
         | none => Except.ok none
         | some e =>
           match cd.dec e.1 with
           | .ok a => Except.ok (some a)
           | .error m => Except.error (RedisError.DeserializeError key m)
       else Except.error (RedisError.ConnectionError "connection refused"), s) := by
  by_cases h : s.connected
  · cases hl : lookupData s.data key with
    | none =>
      simp [RedisDatabase._get, RedisDatabase.execAs, RedisDatabase.executeCommand,
        RedisDatabase.connection, Store.runCommand, decodeOptString, h, hl]
    | some e =>
      cases hd : cd.dec e.1 <;>
        simp [RedisDatabase._get, RedisDatabase.execAs, RedisDatabase.executeCommand,
          RedisDatabase.connection, Store.runCommand, decodeOptString, h, hl, hd]
  · simp [RedisDatabase._get, RedisDatabase.execAs, RedisDatabase.executeCommand,
      RedisDatabase.connection, h]

theorem insert_eq {α : Type} (cd : Codec α) (db : RedisDatabase) (s : Store)
    (key : String) (value : α) :
    StorageWrite.insert cd db s key value =
      (if s.connected then
         match (RedisDatabase._get cd db s key).1 with
         | .error e => (Except.error e, s)
         | .ok previous =>
           match cd.enc value with
           | .error e => (Except.error (RedisError.SerializeError key e), s)
           | .ok str =>
             (Except.ok previous,
              { s with data := setEntry s.data key str db.ttl })
       else (Except.error (RedisError.ConnectionError "connection refused"), s)) := by
  by_cases h : s.connected
  · rw [StorageWrite.insert, get_eq]
    cases hl : lookupData s.data key with
    | none =>
      cases he : cd.enc value <;>
        simp [RedisDatabase.execAs, RedisDatabase.executeCommand,
          RedisDatabase.connection, Store.runCommand, decodeUnit, h, hl, he, get_eq]
    | some e =>
      cases hd : cd.dec e.1 with
      | error m => simp [h, hl, hd, get_eq]
      | ok a =>
        cases he : cd.enc value <;>
          simp [RedisDatabase.execAs, RedisDatabase.executeCommand,
            RedisDatabase.connection, Store.runCommand, decodeUnit, h, hl, hd, he, get_eq]
  · simp [StorageWrite.insert, get_eq, h]

theorem remove_eq {α : Type} (cd : Codec α) (db : RedisDatabase) (s : Store)
    (key : String) :
    StorageWrite.remove cd db s key =
      (if s.connected then
         match (RedisDatabase._get cd db s key).1 with
         | .error e => (Except.error e, s)
         | .ok previous =>
           (Except.ok previous, { s with data := removeEntry s.data key })
       else (Except.error (RedisError.ConnectionError "connection refused"), s)) := by
  by_cases h : s.connected
  · rw [StorageWrite.remove, get_eq]
    cases hl : lookupData s.data key with
    | none =>
      simp [RedisDatabase.execAs, RedisDatabase.executeCommand,
        RedisDatabase.connection, Store.runCommand, decodeUnit, h, hl, get_eq]
    | some e =>
      cases hd : cd.dec e.1 <;>
        simp [RedisDatabase.execAs, RedisDatabase.executeCommand,
          RedisDatabase.connection, Store.runCommand, decodeUnit, h, hl, hd, get_eq]
  · simp [StorageWrite.remove, get_eq, h]

theorem exists_eq (db : RedisDatabase) (s : Store) (key : String) :
    StorageRead.existsKey db s key =
      (if s.connected then Except.ok (lookupData s.data key).isSome
       else Except.error (RedisError.ConnectionError "connection refused"), s) := by
  by_cases h : s.connected <;>
    simp [StorageRead.existsKey, RedisDatabase.execAs, RedisDatabase.executeCommand,
      RedisDatabase.connection, Store.runCommand, decodeBool, h]

theorem ttl_eq (db : RedisDatabase) (s : Store) (key : String) :
    StorageTemp.ttl db s key =
      (if s.connected then
         Except.ok (Duration.fromSecs
           (match lookupData s.data key with
            | some e => e.2
            | none => s.missingTtl))
       else Except.error (RedisError.ConnectionError "connection refused"), s) := by
  by_cases h : s.connected
  · cases hl : lookupData s.data key <;>
      simp [StorageTemp.ttl, RedisDatabase.execAs, RedisDatabase.executeCommand,
        RedisDatabase.connection, Store.runCommand, decodeNat, h, hl]
  · simp [StorageTemp.ttl, RedisDatabase.execAs, RedisDatabase.executeCommand,
      RedisDatabase.connection, h]

/-! Concrete fixtures used by the witnesses. -/

/-- Decimal digit value of a character, if it is a digit. -/
def charDigit? (c : Char) : Option Nat :=
  if 48 ≤ c.toNat ∧ c.toNat ≤ 57 then some (c.toNat - 48) else none

def parseNatAux : List Char → Nat → Option Nat
  | [], acc => some acc
  | c :: rest, acc =>
    match charDigit? c with
    | some d => parseNatAux rest (acc * 10 + d)
    | none => none

/-- Parse a nonempty all-digit string as a Nat. -/
def parseNat (v : String) : Option Nat :=
  match v.data with
  | [] => none
  | l => parseNatAux l 0

/-- A codec for Nat values: encode by decimal rendering, decode by parsing. -/
def natCodec : Codec Nat :=
  { enc := fun n => .ok (toString n),
    dec := fun v => match parseNat v with
      | some n => .ok n
      | none => .error "invalid number" }

/-- A codec whose encoder always fails. -/
def badCodec : Codec Nat :=
  { enc := fun _ => .error "unsupported", dec := natCodec.dec }

def db0 : RedisDatabase := { client := { url := "redis://localhost:6379" }, ttl := 60 }

def store0 : Store := { data := [], missingTtl := 0, connected := true }

def s42 : Store := { data := [("k", "42", 60)], missingTtl := 0, connected := true }

def sBad : Store := { data := [("k", "zz", 60)], missingTtl := 0, connected := true }

def sMiss : Store := { data := [], missingTtl := 7, connected := true }

def sDown : Store := { data := [], missingTtl := 0, connected := false }

/-- C1: Round-trip — if insert(k, v) succeeds and v is encodable (its
encoding decodes back to v), a following get(k) on the resulting store
returns Some v. -/
theorem round_trip {α : Type} (cd : Codec α) (db : RedisDatabase)
    (s s' : Store) (key e : String) (v : α) (p : Option α)
    (henc : cd.enc v = .ok e) (hdec : cd.dec e = .ok v)
    (hins : StorageWrite.insert cd db s key v = (.ok p, s')) :
    StorageRead.get cd db s' key = (.ok (some v), s') := by
  rw [insert_eq] at hins
  by_cases h : s.connected
  · rw [if_pos h] at hins
    cases hg : (RedisDatabase._get cd db s key).1 with
    | error e0 => rw [hg] at hins; simp at hins
    | ok prev =>
      rw [hg, henc] at hins
      have hs : ({ s with data := setEntry s.data key e db.ttl } : Store) = s' :=
        congrArg Prod.snd hins
      rw [← hs, StorageRead.get, get_eq]
      simp [h, lookup_setEntry_self, hdec]
  · rw [if_neg h] at hins
    simp at hins

theorem round_trip_witness :
    natCodec.enc 42 = .ok "42" ∧ natCodec.dec "42" = .ok 42 ∧
    StorageWrite.insert natCodec db0 store0 "k" 42 = (.ok none, s42) ∧
    StorageRead.get natCodec db0 s42 "k" = (.ok (some 42), s42) :=
  ⟨by rfl, by rfl, by rfl,
   round_trip natCodec db0 store0 s42 "k" "42" 42 none (by rfl) (by rfl) (by rfl)⟩

/-- C2: Previous-value contract — after a successful insert(k, v1), a second
insert(k, v2) returns Some v1 and remove(k) returns Some v1; remove(k) on a
key with no stored value returns None.  The previous value comes from the
pre-write internal read. -/
theorem previous_value_contract {α : Type} (cd : Codec α) (db : RedisDatabase)
    (s : Store) (key e1 e2 : String) (v1 v2 : α)
    (henc1 : cd.enc v1 = .ok e1) (hdec1 : cd.dec e1 = .ok v1)
    (henc2 : cd.enc v2 = .ok e2) :
    (∀ p s1, StorageWrite.insert cd db s key v1 = (.ok p, s1) →
       (StorageWrite.insert cd db s1 key v2).1 = .ok (some v1) ∧
       (StorageWrite.remove cd db s1 key).1 = .ok (some v1)) ∧
    (s.connected = true → lookupData s.data key = none →
       (StorageWrite.remove cd db s key).1 = .ok none) := by
  constructor
  · intro p s1 hins
    rw [insert_eq] at hins
    by_cases h : s.connected
    · rw [if_pos h] at hins
      cases hg : (RedisDatabase._get cd db s key).1 with
      | error e0 => rw [hg] at hins; simp at hins
      | ok prev =>
        rw [hg, henc1] at hins
        have hs : ({ s with data := setEntry s.data key e1 db.ttl } : Store) = s1 :=
          congrArg Prod.snd hins
        have hg1 : (RedisDatabase._get cd db s1 key).1 = .ok (some v1) := by
          rw [← hs, get_eq]
          simp [h, lookup_setEntry_self, hdec1]
        constructor
        · rw [insert_eq, if_pos (by rw [← hs]; exact h), hg1, henc2]
        · rw [remove_eq, if_pos (by rw [← hs]; exact h), hg1]
    · rw [if_neg h] at hins
      simp at hins
  · intro h hl
    have hg : (RedisDatabase._get cd db s key).1 = .ok none := by
      rw [get_eq]; simp [h, hl]
    rw [remove_eq, if_pos h, hg]

theorem previous_value_contract_witness :
    (StorageWrite.insert natCodec db0 s42 "k" 7).1 = .ok (some 42) ∧
    (StorageWrite.remove natCodec db0 s42 "k").1 = .ok (some 42) ∧
    (StorageWrite.remove natCodec db0 store0 "k").1 = .ok none :=
  have h := previous_value_contract natCodec db0 store0 "k" "42" "7" 42 7
    (by rfl) (by rfl) (by rfl)
  ⟨(h.1 none s42 (by rfl)).1, (h.1 none s42 (by rfl)).2, h.2 (by rfl) (by rfl)⟩

/-- C3: TTL pass-through — ttl(key) returns the remaining time-to-live as a
Duration of whole seconds; the integer the store reports is handed to the
caller unchanged, including the store's implementation-defined answer for an
absent key: the adapter substitutes no local default. -/
theorem ttl_pass_through (db : RedisDatabase) (s : Store) (key : String)
    (h : s.connected = true) :
    (∀ v t, lookupData s.data key = some (v, t) →
       StorageTemp.ttl db s key = (.ok (Duration.fromSecs t), s)) ∧
    (lookupData s.data key = none →
       StorageTemp.ttl db s key = (.ok (Duration.fromSecs s.missingTtl), s)) := by
  constructor
  · intro v t hl
    rw [ttl_eq]
    simp [h, hl]
  · intro hl
    rw [ttl_eq]
    simp [h, hl]

theorem ttl_pass_through_witness :
    StorageTemp.ttl db0 s42 "k" = (.ok (Duration.fromSecs 60), s42) ∧
    StorageTemp.ttl db0 sMiss "k" = (.ok (Duration.fromSecs 7), sMiss) :=
  ⟨(ttl_pass_through db0 s42 "k" (by rfl)).1 "42" 60 (by rfl),
   (ttl_pass_through db0 sMiss "k" (by rfl)).2 (by rfl)⟩

/-- C4: Serialize failure isolation — when encoding the value fails with
message m, insert(k, v) returns SerializeError k m, the store state comes
back unchanged (the set command was never issued), and a subsequent get(k)
still shows the prior state. -/
theorem serialize_error_isolation {α : Type} (cd : Codec α)
    (db : RedisDatabase) (s : Store) (key : String) (v : α) (m : String)
    (p : Option α)
    (hpre : (RedisDatabase._get cd db s key).1 = .ok p)
    (henc : cd.enc v = .error m) :
    StorageWrite.insert cd db s key v = (.error (.SerializeError key m), s) ∧
    StorageRead.get cd db s key = (.ok p, s) := by
  by_cases h : s.connected
  · constructor
    · rw [insert_eq, if_pos h, hpre, henc]
    · have h2 : RedisDatabase._get cd db s key =
          ((RedisDatabase._get cd db s key).1, s) := by
        rw [get_eq]
      rw [StorageRead.get, h2, hpre]
  · rw [get_eq] at hpre
    simp [h] at hpre

theorem serialize_error_isolation_witness :
    badCodec.enc 5 = .error "unsupported" ∧
    StorageWrite.insert badCodec db0 s42 "k" 5 =
      (.error (.SerializeError "k" "unsupported"), s42) ∧
    StorageRead.get badCodec db0 s42 "k" = (.ok (some 42), s42) :=
  have h := serialize_error_isolation badCodec db0 s42 "k" 5 "unsupported"
    (some 42) (by rfl) (by rfl)
  ⟨by rfl, h.1, h.2⟩

/-- C5: Get on absence and decode failure — get(k) returns None when no
string is stored under k, and when the stored string fails to decode get(k)
returns DeserializeError k (not None), never a partial value. -/
theorem get_absence_decode_failure {α : Type} (cd : Codec α)
    (db : RedisDatabase) (s : Store) (key : String) (h : s.connected = true) :
    (lookupData s.data key = none →
       StorageRead.get cd db s key = (.ok none, s)) ∧
    (∀ v t m, lookupData s.data key = some (v, t) → cd.dec v = .error m →
       StorageRead.get cd db s key = (.error (.DeserializeError key m), s)) := by
  constructor
  · intro hl
    rw [StorageRead.get, get_eq]
    simp [h, hl]
  · intro v t m hl hd
    rw [StorageRead.get, get_eq]
    simp [h, hl, hd]

theorem get_absence_decode_failure_witness :
    StorageRead.get natCodec db0 store0 "k" = (.ok none, store0) ∧
    StorageRead.get natCodec db0 sBad "k" =
      (.error (.DeserializeError "k" "invalid number"), sBad) :=
  ⟨(get_absence_decode_failure natCodec db0 store0 "k" (by rfl)).1 (by rfl),
   (get_absence_decode_failure natCodec db0 sBad "k" (by rfl)).2
     "zz" 60 "invalid number" (by rfl) (by rfl)⟩

/-- C6: Absence and deletion effect — on a connected store, a key with no
stored value yields get = None and exists = false; and after a successful
remove(k), get(k) yields None and exists(k) yields false on the resulting
store. -/
theorem absence_and_deletion {α : Type} (cd : Codec α) (db : RedisDatabase)
    (s : Store) (key : String) :
    (s.connected = true → lookupData s.data key = none →
       StorageRead.get cd db s key = (.ok none, s) ∧
       StorageRead.existsKey db s key = (.ok false, s)) ∧
    (∀ p s', StorageWrite.remove cd db s key = (.ok p, s') →
       StorageRead.get cd db s' key = (.ok none, s') ∧
       StorageRead.existsKey db s' key = (.ok false, s')) := by
  constructor
  · intro h hl
    constructor
    · rw [StorageRead.get, get_eq]
      simp [h, hl]
    · rw [exists_eq]
      simp [h, hl]
  · intro p s' hrem
    rw [remove_eq] at hrem
    by_cases h : s.connected
    · rw [if_pos h] at hrem
      cases hg : (RedisDatabase._get cd db s key).1 with
      | error e0 => rw [hg] at hrem; simp at hrem
      | ok prev =>
        rw [hg] at hrem
        have hs : ({ s with data := removeEntry s.data key } : Store) = s' :=
          congrArg Prod.snd hrem
        constructor
        · rw [← hs, StorageRead.get, get_eq]
          simp [h, lookup_removeEntry_self]
        · rw [← hs, exists_eq]
          simp [h, lookup_removeEntry_self]
    · rw [if_neg h] at hrem
      simp at hrem

theorem absence_and_deletion_witness :
    (StorageRead.get natCodec db0 s42 "j" = (.ok none, s42) ∧
     StorageRead.existsKey db0 s42 "j" = (.ok false, s42)) ∧
    (StorageRead.get natCodec db0 store0 "k" = (.ok none, store0) ∧
     StorageRead.existsKey db0 store0 "k" = (.ok false, store0)) :=
  ⟨(absence_and_deletion natCodec db0 s42 "j").1 (by rfl) (by rfl),
   (absence_and_deletion natCodec db0 s42 "k").2 (some 42) store0 (by rfl)⟩

/-- C7: Default TTL on every write — a successful insert stores the encoded
value with the adapter's configured TTL (there is no per-call override:
insert takes none), so ttl(k) on the resulting store yields exactly the
configured duration, which is ≤ it and positive whenever it is positive. -/
theorem default_ttl_on_insert {α : Type} (cd : Codec α) (db : RedisDatabase)
    (s : Store) (key : String) (v : α) (p : Option α) (s' : Store)
    (hins : StorageWrite.insert cd db s key v = (.ok p, s')) :
    StorageTemp.ttl db s' key = (.ok (Duration.fromSecs db.ttl), s') ∧
    Duration.fromSecs db.ttl ≤ db.ttl ∧
    (0 < db.ttl → 0 < Duration.fromSecs db.ttl) := by
  rw [insert_eq] at hins
  by_cases h : s.connected
  · rw [if_pos h] at hins
    cases hg : (RedisDatabase._get cd db s key).1 with
    | error e0 => rw [hg] at hins; simp at hins
    | ok prev =>
      rw [hg] at hins
      cases he : cd.enc v with
      | error m => rw [he] at hins; simp at hins
      | ok str =>
        rw [he] at hins
        have hs : ({ s with data := setEntry s.data key str db.ttl } : Store) = s' :=
          congrArg Prod.snd hins
        refine ⟨?_, le_refl _, fun ht => ht⟩
        rw [← hs, ttl_eq]
        simp [h, lookup_setEntry_self]
  · rw [if_neg h] at hins
    simp at hins

theorem default_ttl_on_insert_witness :
    StorageWrite.insert natCodec db0 store0 "k" 42 = (.ok none, s42) ∧
    StorageTemp.ttl db0 s42 "k" = (.ok (Duration.fromSecs db0.ttl), s42) ∧
    Duration.fromSecs db0.ttl ≤ db0.ttl ∧
    (0 < db0.ttl → 0 < Duration.fromSecs db0.ttl) :=
  have h := default_ttl_on_insert natCodec db0 store0 "k" 42 none s42 (by rfl)
  ⟨by rfl, h.1, h.2.1, h.2.2⟩

/-- Concrete URL parse outcomes for the constructor witness. -/
def parseOkFn : String → Except String Client := fun u => .ok { url := u }

def parseErrFn : String → Except String Client := fun _ => .error "bad url"

/-- C8: Constructor error behavior — new succeeds with an adapter exactly
when the URL parses into a client handle, and fails with ConnectionError
exactly when parsing fails; an unreachable server does not fail
construction, the connection failure surfaces only on first use (here: the
first get against a disconnected store). -/
theorem constructor_behavior {α : Type} (cd : Codec α)
    (parse : String → Except String Client) (url : String) (t : Nat) :
    (∀ c, parse url = .ok c →
       RedisDatabase.new parse url t = .ok { client := c, ttl := t }) ∧
    (∀ e, parse url = .error e →
       RedisDatabase.new parse url t = .error (.ConnectionError e)) ∧
    (∀ c key s, parse url = .ok c → s.connected = false →
       (StorageRead.get cd { client := c, ttl := t } s key).1 =
         .error (.ConnectionError "connection refused")) := by
  refine ⟨?_, ?_, ?_⟩
  · intro c hc
    rw [RedisDatabase.new, hc]
  · intro e he
    rw [RedisDatabase.new, he]
  · intro c key s _ hs
    rw [StorageRead.get, get_eq]
    simp [hs]

theorem constructor_behavior_witness :
    RedisDatabase.new parseOkFn "redis://localhost:6379" 60 = .ok db0 ∧
    RedisDatabase.new parseErrFn "nonsense" 60 =
      .error (.ConnectionError "bad url") ∧
    (StorageRead.get natCodec db0 sDown "k").1 =
      .error (.ConnectionError "connection refused") :=
  ⟨(constructor_behavior natCodec parseOkFn "redis://localhost:6379" 60).1
     db0.client (by rfl),
   (constructor_behavior natCodec parseErrFn "nonsense" 60).2.1
     "bad url" (by rfl),
   (constructor_behavior natCodec parseOkFn "redis://localhost:6379" 60).2.2
     db0.client "k" sDown (by rfl) (by rfl)⟩

theorem stepOp_fst {α : Type} (cd : Codec α) (db : RedisDatabase) (s : Store)
    (op : Op α) : (stepOp cd db s op).1 = db := by
  cases op <;> rfl

/-- C9: Adapter frame property — across any sequence of operations the
adapter value threaded through is the one constructed, so its client handle
and configured TTL are unchanged by every get, exists, insert, remove and
ttl call; the adapter mutates no state of its own. -/
theorem adapter_frame {α : Type} (cd : Codec α) (db : RedisDatabase)
    (s : Store) (ops : List (Op α)) :
    (runOps cd db s ops).1 = db ∧
    ∀ op, ((stepOp cd db s op).1).client = db.client ∧
      ((stepOp cd db s op).1).ttl = db.ttl := by
  constructor
  · induction ops generalizing db s with
    | nil => rfl
    | cons op rest ih =>
      rw [runOps]
      rw [stepOp_fst]
      exact ih db (stepOp cd db s op).2
  · intro op
    rw [stepOp_fst]
    exact ⟨rfl, rfl⟩

/-- C10: Pre-read failure mode of the writes — when the string currently
stored under k fails to decode with message m, both insert(k, v) and
remove(k) fail with DeserializeError k m and hand the store state back
unchanged: the set / delete command is never issued. -/
theorem write_pre_read_failure {α : Type} (cd : Codec α) (db : RedisDatabase)
    (s : Store) (key v0 : String) (t : Nat) (m : String) (v : α)
    (h : s.connected = true) (hl : lookupData s.data key = some (v0, t))
    (hd : cd.dec v0 = .error m) :
    StorageWrite.insert cd db s key v =
      (.error (.DeserializeError key m), s) ∧
    StorageWrite.remove cd db s key =
      (.error (.DeserializeError key m), s) := by
  have hg : (RedisDatabase._get cd db s key).1 =
      .error (.DeserializeError key m) := by
    rw [get_eq]
    simp [h, hl, hd]
  constructor
  · rw [insert_eq, if_pos h, hg]
  · rw [remove_eq, if_pos h, hg]

theorem write_pre_read_failure_witness :
    StorageWrite.insert natCodec db0 sBad "k" 5 =
      (.error (.DeserializeError "k" "invalid number"), sBad) ∧
    StorageWrite.remove natCodec db0 sBad "k" =
      (.error (.DeserializeError "k" "invalid number"), sBad) :=
  write_pre_read_failure natCodec db0 sBad "k" "zz" 60 "invalid number" 5
    (by rfl) (by rfl) (by rfl)

end LushusRedis
